import Mathlib

/-!
Verification of the Mailpile MIME generator (`mailpile/mail_generator.py`).

The development shallowly embeds the generator: Python strings are Lean
`String`s, the message tree is an explicit inductive, the output stream is an
accumulated `String`, in-place mutation of the message (the multipart boundary
back-fill) is explicit state passing, and the `random.randrange` source is an
oracle `Nat → Nat` consumed at an explicit index.  Fallible paths return
`Except`.  The string primitives used by the source (`str.split`, `str.join`,
`str.replace`, `re.sub` on the anchored `^From ` pattern, `str(n)` decimal
rendering) are given executable Python-faithful definitions below.
-/

namespace MailGen

/-! ## Python string primitives -/

/-- First occurrence split: returns `some (before, after)` where `before` is the
text before the leftmost occurrence of `sep` and `after` the text after it,
or `none` when `sep` does not occur.  Mirrors the scan of CPython
`str.split(sep)` for a non-empty separator. -/
def splitFirst (sep : List Char) : List Char → Option (List Char × List Char)
  | [] => if sep = [] then some ([], []) else none
  | c :: rest =>
    if sep.isPrefixOf (c :: rest) then some ([], (c :: rest).drop sep.length)
    else
      match splitFirst sep rest with
      | none => none
      | some (pre, post) => some (c :: pre, post)

/-- Repeatedly split at the leftmost separator occurrence.  `fuel` bounds the
number of splits; every use supplies `fuel` larger than the number of
occurrences, so the bound is never hit. -/
def listSplitFuel (sep : List Char) : Nat → List Char → List (List Char)
  | 0, s => [s]
  | fuel + 1, s =>
    match splitFirst sep s with
    | none => [s]
    | some (pre, post) => pre :: listSplitFuel sep fuel post

/-- Python `s.split(sep)` for a non-empty separator `sep`. -/
def pysplit (sep s : String) : List String :=
  (listSplitFuel sep.data (s.data.length + 1) s.data).map fun l => String.mk l

/-- Python `sep.join(parts)`. -/
def pyjoin (sep : String) : List String → String
  | [] => ""
  | [s] => s
  | s :: rest => s ++ sep ++ pyjoin sep rest

/-- Python `s.replace(old, new)` for non-empty `old` (equivalent to
`new.join(s.split(old))`). -/
def pyreplace (s old new : String) : String :=
  pyjoin new (pysplit old s)

/-- `fcre.sub('>From ', s)` where `fcre = re.compile('^From ', re.MULTILINE)`:
prefix `>` to every line that starts with `From `.  In `re.MULTILINE` mode the
anchor `^` matches at the start of the string and right after each `'\n'`,
so the lines are exactly the `'\n'`-separated segments. -/
def mangle (s : String) : String :=
  pyjoin "\n" ((pysplit "\n" s).map fun l =>
    if l.startsWith "From " then ">" ++ l else l)

/-- `_is8bitstring` (line 80): a byte string that fails to decode as
`us-ascii`, i.e. containing a code unit at or above 128. -/
def is8bitstring (s : String) : Bool :=
  s.data.any fun c => 128 ≤ c.toNat

/-! ## Decimal rendering, Python `str(n)` for a natural number -/

/-- Digits of `n` in base 10, most significant first; `fuel`-bounded recursion
on `n / 10` (any `fuel > log10 n` yields all digits). -/
def decAux : Nat → Nat → List Char
  | 0, _ => []
  | fuel + 1, n =>
    if n < 10 then [Nat.digitChar n]
    else decAux fuel (n / 10) ++ [Nat.digitChar (n % 10)]

/-- Python `str(n)` for a natural number: decimal digits. -/
def natToDec (n : Nat) : String := String.mk (decAux (n + 1) n)

/-! ## The boundary allocator `_make_boundary` (lines 423-443) -/

/-- `_width = len(repr(sys.maxint-1))` on a 64-bit build: `sys.maxint` is
`2^63 - 1`, whose predecessor prints with 19 digits. -/
def _width : Nat := 19

/-- `'%019d' % token`: decimal digits of `token` left-padded with zeros to
width `_width`. -/
def fmtToken (token : Nat) : String :=
  String.mk (List.replicate (_width - (natToDec token).length) '0') ++ natToDec token

/-- `boundary = ('=' * 15) + (_fmt % token) + '=='` (line 432). -/
def initialBoundary (token : Nat) : String :=
  String.mk (List.replicate 15 '=') ++ fmtToken token ++ "=="

/-- The collision test of lines 438-439: the regex
`'^--' + re.escape(b) + '(--)?$'` compiled with `re.MULTILINE` matches `text`
iff some `'\n'`-separated line of `text` equals `--b` or `--b--`
(`$` in multiline mode matches only before `'\n'` or at the end). -/
def collides (b text : String) : Bool :=
  (pysplit "\n" text).any fun l => l == "--" ++ b || l == "--" ++ b ++ "--"

/-- The candidate tried on the `k`-th iteration of the collision loop:
the initial boundary first, then `boundary + '.' + str(counter)` for
`counter = 0, 1, 2, ...` (line 441). -/
def cand (boundary : String) : Nat → String
  | 0 => boundary
  | k + 1 => boundary ++ "." ++ natToDec k

/-- The `while True` loop of lines 437-442, testing `cand boundary k`,
`cand boundary (k+1)`, ... in order and returning the first candidate free of
collisions.  The Python loop is unbounded; here it carries fuel, and theorem
`make_boundary_collision_free` below shows (by a pigeonhole argument) that the
fuel supplied by `_make_boundary` always suffices, so the bounded and the
unbounded loop agree. -/
def boundarySearch (boundary text : String) : Nat → Nat → String
  | 0, k => cand boundary k
  | fuel + 1, k =>
    if collides (cand boundary k) text then boundarySearch boundary text fuel (k + 1)
    else cand boundary k

/-- `_make_boundary(text)` (lines 428-443).  `token` stands for the value of
`random.randrange(sys.maxint)`.  The fuel `2 * lines + 2` strictly exceeds the
number of candidates that can collide with `text` (each line rules out at most
two candidates), so the search never exhausts it. -/
def _make_boundary (token : Nat) (text : Option String) : String :=
  let boundary := initialBoundary token
  match text with
  | none => boundary
  | some t => boundarySearch boundary t (2 * (pysplit "\n" t).length + 2) 0

/-! ## The message tree

A `Message` mirrors the `email.message.Message` surface the generator touches:
an ordered header list (names paired with plain-string values), the
content-type split into maintype and subtype, the payload (`None`, a raw
string, or a list of sub-messages), the boundary parameter of the
Content-Type header (`get_boundary` / `set_boundary`), the optional preamble
and epilogue, and the stored Unix-From line (`get_unixfrom`).  `MsgList` is an
inlined list of messages so that all recursions stay structural. -/

mutual
inductive Message where
  | mk : List (String × String) → String → String → Payload →
      Option String → Option String → Option String → Option String → Message

inductive Payload where
  | pnone : Payload
  | pstr : String → Payload
  | plist : MsgList → Payload

inductive MsgList where
  | nil : MsgList
  | cons : Message → MsgList → MsgList
end

def Message.headers : Message → List (String × String)
  | .mk hs _ _ _ _ _ _ _ => hs

def Message.maintype : Message → String
  | .mk _ mt _ _ _ _ _ _ => mt

def Message.subtype : Message → String
  | .mk _ _ st _ _ _ _ _ => st

def Message.payload : Message → Payload
  | .mk _ _ _ pl _ _ _ _ => pl

def Message.boundary : Message → Option String
  | .mk _ _ _ _ bd _ _ _ => bd

def Message.unixfrom : Message → Option String
  | .mk _ _ _ _ _ _ _ uf => uf

def MsgList.toList : MsgList → List Message
  | .nil => []
  | .cons m ms => m :: ms.toList

/-- Error conditions a flatten call can surface (section 7 of the spec):
`typeError` for `raise TypeError(...)` in `_handle_text` and for writing a
`None` payload, `indexError` for `get_payload(0)` on an empty list,
`attributeError` for iterating a string payload in the delivery-status
handler and then treating a character as a message. -/
inductive GErr where
  | typeError : GErr
  | indexError : GErr
  | attributeError : GErr
deriving DecidableEq, Repr

/-- The ambient world: `rand` is the stream of `random.randrange(sys.maxint)`
results consumed by `_make_boundary` (indexed by a counter threaded through
the computation), `henc` is the external `email.header.Header` class:
`henc h maxlinelen v` stands for `Header(v, maxlinelen=maxlinelen,
header_name=h).encode()`, and `ctime` is `time.ctime(time.time())`. -/
structure World where
  rand : Nat → Nat
  henc : String → Nat → String → String
  ctime : String

/-- The generator instance state set up by `Generator.__init__` (lines
99-120): the `mangle_from_` flag, `maxheaderlen`, and the mutable line
separator `self._NL` (`linesep or NL`, so a `None` or empty `linesep` leaves
the default `'\n'`).  The output file object is modelled by returning the
written string. -/
structure Gen where
  mangle_from_ : Bool
  maxheaderlen : Nat
  NL : String
deriving Repr

/-- `Generator.__init__` (lines 99-120). -/
def Gen.init (mangleFrom : Bool) (maxheaderlen : Nat) (linesep : Option String) : Gen :=
  ⟨mangleFrom, maxheaderlen,
    match linesep with
    | some s => if s = "" then "\n" else s
    | none => "\n"⟩

/-- The handler chosen by `Generator._dispatch` (lines 184-198): try
`_handle_<maintype>_<subtype>` with dashes replaced by underscores, then
`_handle_<maintype>`, then the default `_writeBody` (an alias of
`_handle_text`).  The handlers that exist on the class are `_handle_text`,
`_handle_multipart`, `_handle_multipart_signed`,
`_handle_message_delivery_status` and `_handle_message`. -/
inductive Route where
  | textR : Route          -- generic _handle_text
  | multipartR : Route     -- generic _handle_multipart
  | signedR : Route        -- specific _handle_multipart_signed
  | deliveryStatusR : Route -- specific _handle_message_delivery_status
  | messageR : Route       -- generic _handle_message
  | defaultR : Route       -- _writeBody = _handle_text
deriving DecidableEq, Repr

/-- `Generator._dispatch` handler lookup (lines 184-198). -/
def _dispatch_route (maintype subtype : String) : Route :=
  let specific := pyreplace (maintype ++ "_" ++ subtype) "-" "_"
  if specific = "multipart_signed" then .signedR
  else if specific = "message_delivery_status" then .deliveryStatusR
  else
    let generic := pyreplace maintype "-" "_"
    if generic = "text" then .textR
    else if generic = "multipart" then .multipartR
    else if generic = "message" then .messageR
    else .defaultR

/-- Sequential `write` calls: the concatenation of a list of strings. -/
def concatAll : List String → String
  | [] => ""
  | s :: rest => s ++ concatAll rest

/-- One header line of `Generator._write_headers` (lines 204-232).  Two
consecutive `print >> fp, item,` statements separate the `name:` item from
the value item with a single space, giving `name + ': ' + value-part + NL`.
With `maxheaderlen == 0` the value is emitted verbatim; a raw 8-bit value is
likewise emitted verbatim; otherwise the external `Header` class folds it and
its newlines are normalised to the separator.  Header values here are plain
strings, so the `isinstance(v, Header)` branch does not arise. -/
def headerLine (w : World) (g : Gen) (h v : String) : String :=
  if g.maxheaderlen = 0 then h ++ ": " ++ v ++ g.NL
  else if is8bitstring v then h ++ ": " ++ v ++ g.NL
  else h ++ ": " ++ pyreplace (w.henc h g.maxheaderlen v) "\n" g.NL ++ g.NL

/-- `Generator._write_headers` (lines 204-232): every header line, then the
blank line separating headers from body (`print >> fp, NL,`). -/
def _write_headers (w : World) (g : Gen) (hs : List (String × String)) : String :=
  concatAll (hs.map fun hv => headerLine w g hv.1 hv.2) ++ g.NL

/-- `Generator._handle_text` (lines 238-246): `None` payloads are written as
nothing, non-string payloads raise `TypeError`, and the `^From `-mangling is
applied when enabled.  Also serves as `_writeBody`, the default handler. -/
def _handle_text (g : Gen) (payload : Payload) : Except GErr String :=
  match payload with
  | .pnone => .ok ""
  | .pstr s => .ok (if g.mangle_from_ then mangle s else s)
  | .plist _ => .error .typeError

/-- The preamble writes of lines 279-285: when present, the preamble is
mangled exactly like a text body and written followed by one separator. -/
def preambleText (g : Gen) : Option String → String
  | none => ""
  | some p => (if g.mangle_from_ then mangle p else p) ++ g.NL

/-- The epilogue writes of lines 301-307: when present, one separator then
the mangled epilogue. -/
def epilogueText (g : Gen) : Option String → String
  | none => ""
  | some e => g.NL ++ (if g.mangle_from_ then mangle e else e)

/-- The writes of `_handle_multipart` after the subparts are rendered (lines
271-307): resolve the boundary (`if not boundary` covers both a missing and
an empty boundary parameter; a fresh one is computed over
`self._NL.join(msgtexts)` and stored back), then write the optional mangled
preamble, the first dash-boundary, the first body part, each further part
preceded by a delimiter line, the close delimiter without trailing separator,
and the optional epilogue preceded by one separator.  Returns the written
text, the resulting boundary field of the node and the next random index. -/
def multipartAssemble (w : World) (g : Gen) (msgtexts : List String)
    (bd preamble epilogue : Option String) (ri : Nat) :
    String × Option String × Nat :=
  let needNew : Bool := match bd with
    | none => true
    | some b => b = ""
  let (boundary, bd', ri') :=
    if needNew then
      let alltext := pyjoin g.NL msgtexts
      let b := _make_boundary (w.rand ri) (some alltext)
      (b, some b, ri + 1)
    else (bd.getD "", bd, ri)
  let firstPart := match msgtexts with
    | [] => ""
    | t :: _ => t
  let restParts := concatAll (msgtexts.drop 1 |>.map fun t =>
    g.NL ++ "--" ++ boundary ++ g.NL ++ t)
  (preambleText g preamble ++ "--" ++ boundary ++ g.NL ++ firstPart ++ restParts ++
      g.NL ++ "--" ++ boundary ++ "--" ++ epilogueText g epilogue,
    bd', ri')

/-- The per-part post-processing of `_handle_message_delivery_status` (lines
333-339): split the rendered block on the separator and strip exactly one
trailing empty line when present (`if lines and lines[-1] == ''`). -/
def stripTrailingEmpty (g : Gen) (text : String) : String :=
  let lines := pysplit g.NL text
  if lines.getLast? = some "" then pyjoin g.NL lines.dropLast else text

mutual
/-- `Generator._write` (lines 157-182) combined with the recursive
`clone(s).flatten(part, unixfrom=False, linesep=self._NL)` calls the handlers
make: the body is rendered first by the dispatched handler (possibly choosing
and storing a boundary), then the headers of the (possibly mutated) message,
and the result is headers ++ body.  State threaded through: the message (for
the boundary back-fill) and the random index. -/
def _write (w : World) (g : Gen) : Message → Nat →
    Except GErr (String × Message × Nat)
  | .mk hs mt st pl bd pre epi uf, ri =>
    let run : Except GErr (String × Payload × Option String × Nat) :=
      match _dispatch_route mt st with
      | .signedR =>
        -- `_handle_multipart_signed` forwards to `_handle_multipart`
        -- unchanged (line 315); see `_handle_multipart_signed` below.
        _handle_multipart w g pl bd pre epi ri
      | .deliveryStatusR =>
        match _handle_message_delivery_status w g pl ri with
        | .error e => .error e
        | .ok (s, pl', ri') => .ok (s, pl', bd, ri')
      | .textR =>
        match _handle_text g pl with
        | .error e => .error e
        | .ok s => .ok (s, pl, bd, ri)
      | .multipartR => _handle_multipart w g pl bd pre epi ri
      | .messageR =>
        match _handle_message w g pl ri with
        | .error e => .error e
        | .ok (s, pl', ri') => .ok (s, pl', bd, ri')
      | .defaultR =>
        match _handle_text g pl with
        | .error e => .error e
        | .ok s => .ok (s, pl, bd, ri)
    match run with
    | .error e => .error e
    | .ok (body, pl', bd', ri') =>
      .ok (_write_headers w g hs ++ body, .mk hs mt st pl' bd' pre epi uf, ri')

/-- `Generator._handle_multipart` (lines 251-307).  A string payload (a
non-strict parse) is written verbatim with an early return; a `None` payload
behaves as an empty subpart list; otherwise every subpart is rendered into
its own buffer and the pieces are assembled by `multipartAssemble`. -/
def _handle_multipart (w : World) (g : Gen) :
    Payload → Option String → Option String → Option String → Nat →
    Except GErr (String × Payload × Option String × Nat)
  | .pstr s, bd, _, _, ri => .ok (s, .pstr s, bd, ri)
  | .pnone, bd, pre, epi, ri =>
    let (body, bd', ri') := multipartAssemble w g [] bd pre epi ri
    .ok (body, .pnone, bd', ri')
  | .plist ps, bd, pre, epi, ri =>
    match writeList w g ps ri with
    | .error e => .error e
    | .ok (msgtexts, ps', ri') =>
      let (body, bd', ri'') := multipartAssemble w g msgtexts bd pre epi ri'
      .ok (body, .plist ps', bd', ri'')

/-- `Generator._handle_message_delivery_status` (lines 324-343): render each
part separately, strip one trailing empty line from each block, and join the
blocks with the separator.  A `None` payload fails the `for` iteration with
`TypeError`; a non-empty string payload iterates characters and fails on the
first with `AttributeError`; an empty string iterates nothing. -/
def _handle_message_delivery_status (w : World) (g : Gen) :
    Payload → Nat → Except GErr (String × Payload × Nat)
  | .pnone, _ => .error .typeError
  | .pstr s, ri =>
    if s = "" then .ok ("", .pstr s, ri) else .error .attributeError
  | .plist ps, ri =>
    match writeList w g ps ri with
    | .error e => .error e
    | .ok (texts, ps', ri') =>
      .ok (pyjoin g.NL (texts.map fun t => stripTrailingEmpty g t), .plist ps', ri')

/-- `Generator._handle_message` (lines 345-361): a string payload (the
`HeaderParser` / issue 7970 shape) is emitted verbatim; a list payload has
its zeroth element flattened (`get_payload(0)` raises `IndexError` on an
empty list); a `None` payload reaches `self._fp.write(None)`, a
`TypeError`. -/
def _handle_message (w : World) (g : Gen) :
    Payload → Nat → Except GErr (String × Payload × Nat)
  | .pnone, _ => .error .typeError
  | .pstr s, ri => .ok (s, .pstr s, ri)
  | .plist .nil, _ => .error .indexError
  | .plist (.cons m rest), ri =>
    match _write w g m ri with
    | .error e => .error e
    | .ok (t, m', ri') => .ok (t, .plist (.cons m' rest), ri')

/-- The subpart loop of `_handle_multipart` / `_handle_message_delivery_status`
(lines 266-270 and 329-332): render each part with a cloned generator into a
fresh buffer, collecting the texts and the (possibly mutated) parts. -/
def writeList (w : World) (g : Gen) : MsgList → Nat →
    Except GErr (List String × MsgList × Nat)
  | .nil, ri => .ok ([], .nil, ri)
  | .cons m ms, ri =>
    match _write w g m ri with
    | .error e => .error e
    | .ok (t, m', ri') =>
      match writeList w g ms ri' with
      | .error e => .error e
      | .ok (ts, ms', ri'') => .ok (t :: ts, .cons m' ms', ri'')
end

/-- `Generator._handle_multipart_signed` (lines 309-322): the live body is
`return self._handle_multipart(msg)`; the header-wrapping suppression below
that line is dead code. -/
def _handle_multipart_signed (w : World) (g : Gen)
    (pl : Payload) (bd pre epi : Option String) (ri : Nat) :
    Except GErr (String × Payload × Option String × Nat) :=
  _handle_multipart w g pl bd pre epi ri

/-- The `if linesep: self._NL = linesep` assignment at the top of `flatten`
(lines 140-141): a truthy (non-empty, non-`None`) `linesep` replaces the
stored separator; a falsy one leaves the instance untouched. -/
def effectiveGen (g : Gen) (linesep : Option String) : Gen :=
  match linesep with
  | some s => if s = "" then g else ⟨g.mangle_from_, g.maxheaderlen, s⟩
  | none => g

/-- `Generator.flatten` (lines 126-147): a truthy `linesep` argument is
assigned to `self._NL` (and kept there), the optional Unix-From line is
emitted (synthesised from the current time when the message stores none), and
the tree is written.  Returns the generator as left by the call together with
the output and the (boundary back-filled) message. -/
def flatten (w : World) (g : Gen) (msg : Message) (unixfrom : Bool)
    (linesep : Option String) : Gen × Except GErr (String × Message) :=
  let g' : Gen := effectiveGen g linesep
  let ufrom : String :=
    if unixfrom then
      (match msg.unixfrom with
       | some u => u
       | none => "From nobody " ++ w.ctime) ++ g'.NL
    else ""
  (g',
    match _write w g' msg 0 with
    | .error e => .error e
    | .ok (out, msg', _) => .ok (ufrom ++ out, msg'))

/-! ## Lemmas about the string primitives -/

theorem splitFirst_sound {sep : List Char} :
    ∀ {s pre post : List Char}, splitFirst sep s = some (pre, post) →
      s = pre ++ sep ++ post := by
  intro s
  induction s with
  | nil =>
    intro pre post h
    unfold splitFirst at h
    split at h
    · next hs =>
      obtain ⟨rfl, rfl⟩ : ([] : List Char) = pre ∧ ([] : List Char) = post := by
        simpa using h
      simp [hs]
    · exact absurd h (by simp)
  | cons c rest ih =>
    intro pre post h
    unfold splitFirst at h
    split at h
    · next hp =>
      obtain ⟨t, ht⟩ := List.isPrefixOf_iff_prefix.mp hp
      obtain ⟨rfl, rfl⟩ : ([] : List Char) = pre ∧ (c :: rest).drop sep.length = post := by
        simpa using h
      rw [← ht, List.drop_left]
      simp
    · split at h
      · exact absurd h (by simp)
      · next pre' post' hrest =>
        obtain ⟨rfl, rfl⟩ : c :: pre' = pre ∧ post' = post := by simpa using h
        simpa using congrArg (c :: ·) (ih hrest)

theorem splitFirst_post_lt {sep : List Char} (hsep : sep ≠ [])
    {s pre post : List Char} (h : splitFirst sep s = some (pre, post)) :
    post.length < s.length := by
  have hlen := congrArg List.length (splitFirst_sound h)
  simp only [List.length_append] at hlen
  have hpos : 0 < sep.length := List.length_pos.mpr hsep
  omega

theorem listSplitFuel_ne_nil (sep : List Char) (f : Nat) (s : List Char) :
    listSplitFuel sep f s ≠ [] := by
  cases f with
  | zero => simp [listSplitFuel]
  | succ n =>
    unfold listSplitFuel
    split <;> simp

/-- Any two sufficient fuels make `listSplitFuel` agree, so the fuel chosen by
`pysplit` is an implementation detail. -/
theorem listSplitFuel_congr {sep : List Char} (hsep : sep ≠ []) :
    ∀ (f1 f2 : Nat) (s : List Char), s.length < f1 → s.length < f2 →
      listSplitFuel sep f1 s = listSplitFuel sep f2 s := by
  intro f1
  induction f1 with
  | zero => intro f2 s h1 _; omega
  | succ n ih =>
    intro f2 s h1 h2
    cases f2 with
    | zero => omega
    | succ n2 =>
      cases hsf : splitFirst sep s with
      | none => simp [listSplitFuel, hsf]
      | some pp =>
        obtain ⟨pre, post⟩ := pp
        have hlt := splitFirst_post_lt hsep hsf
        simp only [listSplitFuel, hsf]
        rw [ih n2 post (by omega) (by omega)]

theorem pyjoin_cons_ne (sep s : String) {rest : List String} (h : rest ≠ []) :
    pyjoin sep (s :: rest) = s ++ sep ++ pyjoin sep rest := by
  cases rest with
  | nil => exact absurd rfl h
  | cons a as => rfl

theorem mk_append_mk (a b : List Char) :
    String.mk a ++ String.mk b = String.mk (a ++ b) := rfl

/-- Python invariant `sep.join(s.split(sep)) == s`, at any fuel. -/
theorem pyjoin_map_listSplitFuel (sep : String) :
    ∀ (f : Nat) (l : List Char),
      pyjoin sep ((listSplitFuel sep.data f l).map fun x => String.mk x) =
        String.mk l := by
  intro f
  induction f with
  | zero => intro l; rfl
  | succ n ih =>
    intro l
    cases hsf : splitFirst sep.data l with
    | none => simp [listSplitFuel, hsf, pyjoin]
    | some pp =>
      obtain ⟨pre, post⟩ := pp
      have hsound := splitFirst_sound hsf
      simp only [listSplitFuel, hsf, List.map_cons]
      have hne : (listSplitFuel sep.data n post).map (fun x => String.mk x) ≠ [] := by
        simpa using listSplitFuel_ne_nil sep.data n post
      rw [pyjoin_cons_ne _ _ hne, ih post]
      apply String.ext
      simpa using hsound.symm

/-- Python invariant `sep.join(s.split(sep)) == s`. -/
theorem pyjoin_pysplit (sep s : String) : pyjoin sep (pysplit sep s) = s := by
  unfold pysplit
  rw [pyjoin_map_listSplitFuel]

/-- Stripping the single trailing empty line from a block that ends with the
separator (and splits cleanly at that final separator) recovers the block. -/
theorem stripTrailingEmpty_append_sep (g : Gen) (B : String)
    (h : pysplit g.NL (B ++ g.NL) = pysplit g.NL B ++ [""]) :
    stripTrailingEmpty g (B ++ g.NL) = B := by
  unfold stripTrailingEmpty
  rw [h]
  simp [List.getLast?_concat, List.dropLast_concat, pyjoin_pysplit]

/-! ## Lemmas about decimal rendering -/

/-- The numeric value of a decimal digit string (the proof-side inverse of
`decAux`). -/
def decVal (l : List Char) : Nat :=
  l.foldl (fun a c => 10 * a + (c.toNat - 48)) 0

theorem digitChar_toNat : ∀ d : Nat, d < 10 → (Nat.digitChar d).toNat = 48 + d := by
  decide

theorem decVal_append_digit (l : List Char) (c : Char) :
    decVal (l ++ [c]) = 10 * decVal l + (c.toNat - 48) := by
  unfold decVal
  rw [List.foldl_append]
  rfl

theorem decVal_decAux : ∀ (f n : Nat), n < 10 ^ f → decVal (decAux f n) = n := by
  intro f
  induction f with
  | zero =>
    intro n h
    interval_cases n
    rfl
  | succ m ih =>
    intro n h
    unfold decAux
    by_cases h10 : n < 10
    · rw [if_pos h10]
      show 10 * 0 + ((Nat.digitChar n).toNat - 48) = n
      rw [digitChar_toNat n h10]
      omega
    · rw [if_neg h10, decVal_append_digit]
      have hdiv : n / 10 < 10 ^ m :=
        (Nat.div_lt_iff_lt_mul (by norm_num)).mpr (by rw [← pow_succ]; exact h)
      rw [ih _ hdiv, digitChar_toNat (n % 10) (Nat.mod_lt n (by norm_num))]
      omega

theorem natToDec_inj {m n : Nat} (h : natToDec m = natToDec n) : m = n := by
  have hd : decAux (m + 1) m = decAux (n + 1) n := congrArg String.data h
  have h1 : m < 10 ^ (m + 1) :=
    lt_of_lt_of_le (Nat.lt_pow_self (by norm_num) m)
      (Nat.pow_le_pow_right (by norm_num) (Nat.le_succ m))
  have h2 : n < 10 ^ (n + 1) :=
    lt_of_lt_of_le (Nat.lt_pow_self (by norm_num) n)
      (Nat.pow_le_pow_right (by norm_num) (Nat.le_succ n))
  calc m = decVal (decAux (m + 1) m) := (decVal_decAux _ _ h1).symm
    _ = decVal (decAux (n + 1) n) := by rw [hd]
    _ = n := decVal_decAux _ _ h2

theorem natToDec_ne_nil (n : Nat) : (natToDec n).data ≠ [] := by
  show decAux (n + 1) n ≠ []
  unfold decAux
  split <;> simp

/-! ## Collision freedom of the boundary allocator -/

theorem cand_initial_ne_empty (tok k : Nat) : cand (initialBoundary tok) k ≠ "" := by
  have hlen : 0 < (cand (initialBoundary tok) k).length := by
    cases k with
    | zero =>
      show 0 < (String.mk (List.replicate 15 '=') ++ fmtToken tok ++ "==").length
      rw [String.length_append, String.length_append]
      have h15 : (String.mk (List.replicate 15 '=')).length = 15 := rfl
      omega
    | succ j =>
      show 0 < (initialBoundary tok ++ "." ++ natToDec j).length
      rw [String.length_append, String.length_append]
      have h1 : (("." : String)).length = 1 := rfl
      omega
  intro h
  rw [h] at hlen
  simp at hlen

theorem cand_inj (b : String) : ∀ {i j : Nat}, cand b i = cand b j → i = j := by
  have hlen : ∀ k : Nat, (cand b (k + 1)).length = b.length + 1 + (natToDec k).length := by
    intro k
    show ((b ++ "." ++ natToDec k)).length = _
    rw [String.length_append, String.length_append]
    rfl
  have hpos : ∀ k : Nat, 0 < (natToDec k).length := by
    intro k
    have := natToDec_ne_nil k
    have : (natToDec k).data.length ≠ 0 := fun h0 => this (List.length_eq_zero.mp h0)
    show 0 < (natToDec k).data.length
    omega
  intro i j h
  match i, j with
  | 0, 0 => rfl
  | 0, k + 1 =>
    exfalso
    have hl := congrArg String.length h
    rw [hlen k] at hl
    simp only [cand] at hl
    have := hpos k
    omega
  | k + 1, 0 =>
    exfalso
    have hl := congrArg String.length h
    rw [hlen k] at hl
    simp only [cand] at hl
    have := hpos k
    omega
  | i + 1, j + 1 =>
    have hd := congrArg String.data h
    simp only [cand, String.data_append] at hd
    have hd' : (natToDec i).data = (natToDec j).data := by
      have hd2 : (b.data ++ (("." : String)).data) ++ (natToDec i).data =
          (b.data ++ (("." : String)).data) ++ (natToDec j).data := by
        simpa [List.append_assoc] using hd
      exact List.append_cancel_left hd2
    exact congrArg (· + 1) (natToDec_inj (String.ext hd'))

/-- The line and flavour witnessing a collision of the `k`-th candidate
(a canonical choice used for the pigeonhole argument below). -/
def collWitness (b t : String) (k : Nat) : String × Bool :=
  match (pysplit "\n" t).find?
      (fun l => l == "--" ++ cand b k || l == "--" ++ cand b k ++ "--") with
  | some l => (l, l == "--" ++ cand b k)
  | none => ("", true)

/-- Pigeonhole: among the first `2 * lines + 2` candidates some candidate is
collision-free, because every line of the text can match the dash-boundary
pattern of at most two distinct candidates. -/
theorem exists_good_cand (b t : String) :
    ∃ k, k < 2 * (pysplit "\n" t).length + 2 ∧ collides (cand b k) t = false := by
  by_contra hcon
  push_neg at hcon
  set lines := pysplit "\n" t with hlines
  set N := 2 * lines.length + 2 with hN
  have hcoll : ∀ k, k < N → collides (cand b k) t = true := by
    intro k hk
    have := hcon k hk
    simpa using this
  have hfind : ∀ k, k < N → ∃ l, (pysplit "\n" t).find?
      (fun l => l == "--" ++ cand b k || l == "--" ++ cand b k ++ "--") = some l := by
    intro k hk
    have h1 := hcoll k hk
    unfold collides at h1
    have h2 : ∃ x ∈ pysplit "\n" t,
        (x == "--" ++ cand b k || x == "--" ++ cand b k ++ "--") = true :=
      List.any_eq_true.mp h1
    have h3 := List.find?_isSome.mpr h2
    exact Option.isSome_iff_exists.mp h3
  have hmaps : ∀ k ∈ Finset.range N,
      collWitness b t k ∈ lines.toFinset ×ˢ ({true, false} : Finset Bool) := by
    intro k hk
    obtain ⟨l, hl⟩ := hfind k (Finset.mem_range.mp hk)
    unfold collWitness
    rw [hl]
    refine Finset.mem_product.mpr ⟨?_, ?_⟩
    · exact List.mem_toFinset.mpr (List.mem_of_find?_eq_some hl)
    · rcases Bool.eq_false_or_eq_true (l == "--" ++ cand b k) with hb | hb <;> simp [hb]
  have hcard : (lines.toFinset ×ˢ ({true, false} : Finset Bool)).card <
      (Finset.range N).card := by
    rw [Finset.card_product, Finset.card_range]
    have hle := List.toFinset_card_le lines
    have h2 : ({true, false} : Finset Bool).card = 2 := rfl
    rw [h2]
    omega
  obtain ⟨x, hx, y, hy, hxy, heq⟩ :=
    Finset.exists_ne_map_eq_of_card_lt_of_maps_to hcard hmaps
  apply hxy
  obtain ⟨lx, hlx⟩ := hfind x (Finset.mem_range.mp hx)
  obtain ⟨ly, hly⟩ := hfind y (Finset.mem_range.mp hy)
  have hpx := List.find?_some hlx
  have hpy := List.find?_some hly
  unfold collWitness at heq
  rw [hlx, hly] at heq
  have hll : lx = ly := congrArg Prod.fst heq
  have hflag : (lx == "--" ++ cand b x) = (ly == "--" ++ cand b y) :=
    congrArg Prod.snd heq
  subst hll
  rcases Bool.eq_false_or_eq_true (lx == "--" ++ cand b x) with hb | hb
  · -- both flavours are the dash-boundary form
    rw [hb] at hflag
    have hbx : lx = "--" ++ cand b x := beq_iff_eq.mp hb
    have hby : lx = "--" ++ cand b y := beq_iff_eq.mp hflag.symm
    have hdeq : ("--" ++ cand b x) = ("--" ++ cand b y) := hbx.symm.trans hby
    have hdd := congrArg String.data hdeq
    simp only [String.data_append] at hdd
    have h2 : (cand b x).data = (cand b y).data := List.append_cancel_left hdd
    exact cand_inj b (String.ext h2)
  · -- both flavours are the close-delimiter form
    rw [hb] at hflag
    have hbx : lx = "--" ++ cand b x ++ "--" := by
      rcases Bool.or_eq_true_iff.mp hpx with h | h
      · rw [hb] at h; cases h
      · exact beq_iff_eq.mp h
    have hby : lx = "--" ++ cand b y ++ "--" := by
      rcases Bool.or_eq_true_iff.mp hpy with h | h
      · rw [← hflag] at h; cases h
      · exact beq_iff_eq.mp h
    have hdeq : ("--" ++ cand b x ++ "--") = ("--" ++ cand b y ++ "--") :=
      hbx.symm.trans hby
    have hdd := congrArg String.data hdeq
    simp only [String.data_append] at hdd
    have h1 : (("--" : String)).data ++ (cand b x).data =
        (("--" : String)).data ++ (cand b y).data := by
      have hdd' : ((("--" : String)).data ++ (cand b x).data) ++ (("--" : String)).data =
          ((("--" : String)).data ++ (cand b y).data) ++ (("--" : String)).data := by
        simpa [List.append_assoc] using hdd
      exact List.append_cancel_right hdd'
    have h2 : (cand b x).data = (cand b y).data := List.append_cancel_left h1
    exact cand_inj b (String.ext h2)

/-- The search loop returns a collision-free candidate as soon as one exists
within its fuel. -/
theorem boundarySearch_good (b t : String) :
    ∀ (fuel k0 : Nat), (∃ j, j < fuel ∧ collides (cand b (k0 + j)) t = false) →
      collides (boundarySearch b t fuel k0) t = false := by
  intro fuel
  induction fuel with
  | zero =>
    intro k0 h
    obtain ⟨j, hj, _⟩ := h
    omega
  | succ n ih =>
    intro k0 h
    obtain ⟨j, hj, hgood⟩ := h
    unfold boundarySearch
    by_cases hc : collides (cand b k0) t = true
    · rw [if_pos hc]
      apply ih
      have hj0 : j ≠ 0 := by
        intro h0
        rw [h0, Nat.add_zero] at hgood
        rw [hgood] at hc
        cases hc
      obtain ⟨j', rfl⟩ : ∃ j', j = j' + 1 := ⟨j - 1, by omega⟩
      refine ⟨j', by omega, ?_⟩
      rw [show k0 + 1 + j' = k0 + (j' + 1) by omega]
      exact hgood
    · rw [if_neg hc]
      simpa using hc

/-- The search loop always returns `cand b k` for some `k`, so in particular
its result is never the empty string when the base is an initial boundary. -/
theorem boundarySearch_is_cand (b t : String) :
    ∀ (fuel k0 : Nat), ∃ k, boundarySearch b t fuel k0 = cand b k := by
  intro fuel
  induction fuel with
  | zero => intro k0; exact ⟨k0, rfl⟩
  | succ n ih =>
    intro k0
    unfold boundarySearch
    by_cases hc : collides (cand b k0) t = true
    · rw [if_pos hc]; exact ih (k0 + 1)
    · rw [if_neg hc]; exact ⟨k0, rfl⟩

/-- `_make_boundary` never returns the empty string (needed because
`_handle_multipart` treats an empty boundary parameter as missing). -/
theorem make_boundary_ne_empty (token : Nat) (text : Option String) :
    _make_boundary token text ≠ "" := by
  cases text with
  | none => exact cand_initial_ne_empty token 0
  | some t =>
    obtain ⟨k, hk⟩ :=
      boundarySearch_is_cand (initialBoundary token) t
        (2 * (pysplit "\n" t).length + 2) 0
    show boundarySearch (initialBoundary token) t (2 * (pysplit "\n" t).length + 2) 0 ≠ ""
    rw [hk]
    exact cand_initial_ne_empty token k

/-! ## Concrete instances used by the witnesses -/

/-- A concrete world for witnesses: the random stream is constantly `0`, the
external header folder returns the value unchanged, the clock is fixed. -/
def W0 : World := ⟨fun _ => 0, fun _ _ v => v, "Thu Jan  1 00:00:00 1970"⟩

/-- A concrete generator configuration: no From-mangling, header wrapping
disabled, LF separator. -/
def G0 : Gen := ⟨false, 0, "\n"⟩

/-! ## The claims -/

/-- C1: for every input text `t` and every drawn random token, the boundary
returned by `_make_boundary` with `text = t` is collision-free against `t`:
`collides b t` is by definition the test that some line of `t` (a
`'\n'`-separated segment, as matched by the multiline line-anchored pattern
`^--b(--)?$`) equals `--b` or `--b--`, and the allocator (which appends
`.0`, `.1`, `.2`, ... to the initial random candidate while a collision
remains) always returns a candidate for which this test fails. -/
theorem make_boundary_collision_free (token : Nat) (t : String) :
    collides (_make_boundary token (some t)) t = false := by
  show collides
      (boundarySearch (initialBoundary token) t (2 * (pysplit "\n" t).length + 2) 0)
      t = false
  apply boundarySearch_good
  obtain ⟨k, hk, hgood⟩ := exists_good_cand (initialBoundary token) t
  exact ⟨k, hk, by simpa using hgood⟩

/-- C4: serializing a multipart/signed node is extensionally identical to the
generic multipart handler on the same node and configuration (in particular
header wrapping is not suppressed): the live body of
`_handle_multipart_signed` is `return self._handle_multipart(msg)` (line 315),
the wrapping-suppression below it being dead code. -/
theorem multipart_signed_eq_multipart (w : World) (g : Gen)
    (pl : Payload) (bd pre epi : Option String) (ri : Nat) :
    _handle_multipart_signed w g pl bd pre epi ri =
      _handle_multipart w g pl bd pre epi ri := rfl

/-- C8: a part dispatched to the text handler (`_handle_text`, also the
default `_writeBody`) whose payload is not string-typed (here: a subpart
list) makes the whole flatten call fail with the type-error condition; the
error is the result of the call, surfaced to the caller, and nothing retries
it. -/
theorem text_payload_type_error (w : World) (g : Gen)
    (hs : List (String × String)) (mt st : String) (ps : MsgList)
    (bd pre epi uf : Option String) (uxf : Bool) (lsep : Option String)
    (hroute : _dispatch_route mt st = .textR ∨ _dispatch_route mt st = .defaultR) :
    (flatten w g (.mk hs mt st (.plist ps) bd pre epi uf) uxf lsep).2 =
      .error .typeError := by
  rcases hroute with h | h <;>
    simp [flatten, effectiveGen, _write, h, _handle_text]

theorem text_payload_type_error_witness :
    (flatten W0 G0 (.mk [] "text" "plain" (.plist .nil) none none none none)
      false none).2 = .error .typeError :=
  text_payload_type_error W0 G0 [] "text" "plain" .nil none none none none
    false none (Or.inl rfl)

/-- C9: a multipart node whose body is a raw string (a non-strict parse) and
a message/rfc822 node whose body is a raw string are both tolerated shapes:
the raw string is emitted verbatim after the headers (early return: no
boundary is generated or stored, nothing is re-serialized) and no error is
raised. -/
theorem raw_string_payload_verbatim (w : World) (g : Gen)
    (hs hs' : List (String × String)) (mt st mt' st' : String) (s : String)
    (bd pre epi uf bd' pre' epi' uf' : Option String) (ri : Nat)
    (hmp : _dispatch_route mt st = .multipartR ∨ _dispatch_route mt st = .signedR)
    (hmsg : _dispatch_route mt' st' = .messageR) :
    _write w g (.mk hs mt st (.pstr s) bd pre epi uf) ri =
      .ok (_write_headers w g hs ++ s, .mk hs mt st (.pstr s) bd pre epi uf, ri) ∧
    _write w g (.mk hs' mt' st' (.pstr s) bd' pre' epi' uf') ri =
      .ok (_write_headers w g hs' ++ s,
        .mk hs' mt' st' (.pstr s) bd' pre' epi' uf', ri) := by
  constructor
  · rcases hmp with h | h <;> simp [_write, h, _handle_multipart]
  · simp [_write, hmsg, _handle_message]

theorem raw_string_payload_verbatim_witness :
    _write W0 G0 (.mk [] "multipart" "mixed" (.pstr "raw") none none none none) 0 =
      .ok (_write_headers W0 G0 [] ++ "raw",
        .mk [] "multipart" "mixed" (.pstr "raw") none none none none, 0) ∧
    _write W0 G0 (.mk [] "message" "rfc822" (.pstr "raw") none none none none) 0 =
      .ok (_write_headers W0 G0 [] ++ "raw",
        .mk [] "message" "rfc822" (.pstr "raw") none none none none, 0) :=
  raw_string_payload_verbatim W0 G0 [] [] "multipart" "mixed" "message" "rfc822"
    "raw" none none none none none none none none 0 (Or.inl rfl) rfl

/-- C10: a text part whose payload is `None` makes the text handler return
without writing and without raising, although `None` is not string-typed: the
serialized output is the header block with its terminating blank separator
line, followed by an empty body. -/
theorem text_none_payload (w : World) (g : Gen)
    (hs : List (String × String)) (mt st : String)
    (bd pre epi uf : Option String)
    (hroute : _dispatch_route mt st = .textR ∨ _dispatch_route mt st = .defaultR) :
    _handle_text g .pnone = .ok "" ∧
    flatten w g (.mk hs mt st .pnone bd pre epi uf) false none =
      (g, .ok (_write_headers w g hs, .mk hs mt st .pnone bd pre epi uf)) := by
  refine ⟨rfl, ?_⟩
  rcases hroute with h | h <;>
    simp [flatten, effectiveGen, _write, h, _handle_text]

theorem text_none_payload_witness :
    _handle_text G0 .pnone = .ok "" ∧
    flatten W0 G0 (.mk [("X", "y")] "text" "plain" .pnone none none none none)
        false none =
      (G0, .ok (_write_headers W0 G0 [("X", "y")],
        .mk [("X", "y")] "text" "plain" .pnone none none none none)) :=
  text_none_payload W0 G0 [("X", "y")] "text" "plain" none none none none
    (Or.inl rfl)

/-- C5 counterexample: with max-header-length zero the value is emitted
verbatim, so when the configured separator is CRLF and the value contains an
internal LF break, the emitted line differs from
name + ": " + value-with-breaks-replaced-by-the-separator (the zero branch
of `_write_headers`, line 209, performs no `.replace('\n', self._NL)`, unlike
the other branches). -/
theorem header_line_no_normalization_cex :
    headerLine W0 ⟨false, 0, "\r\n"⟩ "H" "a\nb" ≠
      "H" ++ ": " ++ pyreplace "a\nb" "\n" "\r\n" ++ "\r\n" := by decide

/-- C5 (amended): with max-header-length zero the emitted header line equals
name + ": " + value + separator with the value emitted verbatim — internal
line breaks are not normalized to the separator — regardless of value
length (no wrapping is performed). -/
theorem header_line_maxlen_zero (w : World) (g : Gen) (h v : String)
    (hz : g.maxheaderlen = 0) :
    headerLine w g h v = h ++ ": " ++ v ++ g.NL := by
  unfold headerLine
  rw [if_pos hz]

theorem header_line_maxlen_zero_witness :
    headerLine W0 G0 "Subject" "a long subject line\nwith a break" =
      "Subject" ++ ": " ++ "a long subject line\nwith a break" ++ "\n" :=
  header_line_maxlen_zero W0 G0 "Subject" "a long subject line\nwith a break" rfl

/-- C6 counterexample: a flatten call that supplies a non-empty
line_separator mutates the stored separator for good: an instance with the
LF default ends the call storing CRLF, so the stored separator is not
restored after the call. -/
theorem flatten_linesep_persists_cex :
    ((flatten W0 G0 (.mk [] "text" "plain" (.pstr "x") none none none none)
        false (some "\r\n")).1).NL ≠ G0.NL := by decide

/-- C6 (amended): a non-empty line_separator argument is assigned to the
instance before serialization and remains the instance separator after
flatten returns (a persistent override, not a call-scoped one); the nested
recursive calls during the call all use that separator. -/
theorem flatten_linesep_override (w : World) (g : Gen) (m : Message)
    (uxf : Bool) (s : String) (hne : s ≠ "") :
    (flatten w g m uxf (some s)).1 = ⟨g.mangle_from_, g.maxheaderlen, s⟩ := by
  show effectiveGen g (some s) = _
  simp [effectiveGen, hne]

theorem flatten_linesep_override_witness :
    (flatten W0 G0 (.mk [] "text" "plain" (.pstr "x") none none none none)
        false (some "\r\n")).1 = ⟨false, 0, "\r\n"⟩ :=
  flatten_linesep_override W0 G0
    (.mk [] "text" "plain" (.pstr "x") none none none none) false "\r\n"
    (by decide)

/-- C2: a multipart node with non-empty boundary `BND` whose three children
serialize to bodies `A`, `B`, `C` has its body serialized as exactly
`--BND` + sep + A + sep + `--BND` + sep + B + sep + `--BND` + sep + C +
sep + `--BND--`, with no trailing separator after the close delimiter; a
present preamble is emitted first, mangled like a text body and followed by
the separator, and a present epilogue is emitted after the close delimiter,
preceded by one separator and mangled. -/
theorem multipart_body_shape (w : World) (g : Gen)
    (m1 m2 m3 m1' m2' m3' : Message) (BND A B C : String)
    (pre epi : Option String) (ri ri1 ri2 ri3 : Nat)
    (hBND : BND ≠ "")
    (h1 : _write w g m1 ri = .ok (A, m1', ri1))
    (h2 : _write w g m2 ri1 = .ok (B, m2', ri2))
    (h3 : _write w g m3 ri2 = .ok (C, m3', ri3)) :
    _handle_multipart w g (.plist (.cons m1 (.cons m2 (.cons m3 .nil))))
        (some BND) pre epi ri =
      .ok (preambleText g pre ++
          "--" ++ BND ++ g.NL ++ A ++
          (g.NL ++ "--" ++ BND ++ g.NL) ++ B ++
          (g.NL ++ "--" ++ BND ++ g.NL) ++ C ++
          g.NL ++ "--" ++ BND ++ "--" ++ epilogueText g epi,
        .plist (.cons m1' (.cons m2' (.cons m3' .nil))), some BND, ri3) := by
  simp only [_handle_multipart, writeList, h1, h2, h3]
  unfold multipartAssemble
  simp only [decide_eq_false hBND, Bool.false_eq_true, if_false, Option.getD_some,
    List.drop_succ_cons, List.drop_zero, List.map_cons, List.map_nil, concatAll,
    String.append_empty, String.append_assoc]

theorem multipart_body_shape_witness :
    _handle_multipart W0 G0
        (.plist (.cons (.mk [] "text" "plain" (.pstr "hello") none none none none)
          (.cons (.mk [] "text" "plain" (.pstr "world") none none none none)
            (.cons (.mk [] "text" "plain" (.pstr "!") none none none none) .nil))))
        (some "BB") (some "P") (some "E") 0 =
      .ok (preambleText G0 (some "P") ++
          "--" ++ "BB" ++ G0.NL ++ "\nhello" ++
          (G0.NL ++ "--" ++ "BB" ++ G0.NL) ++ "\nworld" ++
          (G0.NL ++ "--" ++ "BB" ++ G0.NL) ++ "\n!" ++
          G0.NL ++ "--" ++ "BB" ++ "--" ++ epilogueText G0 (some "E"),
        .plist (.cons (.mk [] "text" "plain" (.pstr "hello") none none none none)
          (.cons (.mk [] "text" "plain" (.pstr "world") none none none none)
            (.cons (.mk [] "text" "plain" (.pstr "!") none none none none) .nil))),
        some "BB", 0) :=
  multipart_body_shape W0 G0 _ _ _ _ _ _ "BB" "\nhello" "\nworld" "\n!"
    (some "P") (some "E") 0 0 0 0 (by decide) rfl rfl rfl

/-- The header lines of a message, without the blank line that terminates the
header block (`_write_headers` writes `headerBlock` followed by that blank
line). -/
def headerBlock (w : World) (g : Gen) (c : Message) : String :=
  concatAll (c.headers.map fun hv => headerLine w g hv.1 hv.2)

theorem mangle_empty : mangle "" = "" := rfl

/-- A header-only sub-message (payload is the empty string, routed to the
text handler) renders to its header block followed by the blank terminating
line, and is left unchanged. -/
theorem write_header_only (w : World) (g : Gen) (c : Message) (ri : Nat)
    (hpl : c.payload = .pstr "")
    (hroute : _dispatch_route c.maintype c.subtype = .textR ∨
      _dispatch_route c.maintype c.subtype = .defaultR) :
    _write w g c ri = .ok (headerBlock w g c ++ g.NL, c, ri) := by
  obtain ⟨hs, mt, st, pl, bd, pre, epi, uf⟩ := c
  simp only [Message.payload] at hpl
  simp only [Message.maintype, Message.subtype] at hroute
  subst hpl
  rcases hroute with h | h <;>
    simp [_write, h, _handle_text, mangle_empty, _write_headers, headerBlock,
      Message.headers]

/-- Rendering a list of header-only sub-messages yields their header blocks
(each with the trailing blank line) and leaves the list unchanged. -/
theorem writeList_header_only (w : World) (g : Gen) :
    ∀ (cs : MsgList) (ri : Nat),
      (∀ c ∈ cs.toList, c.payload = .pstr "" ∧
        (_dispatch_route c.maintype c.subtype = .textR ∨
          _dispatch_route c.maintype c.subtype = .defaultR)) →
      writeList w g cs ri =
        .ok (cs.toList.map fun c => headerBlock w g c ++ g.NL, cs, ri)
  | .nil, ri, _ => rfl
  | .cons m ms, ri, h => by
    have hm := h m (by simp [MsgList.toList])
    have hrest : ∀ c ∈ ms.toList, c.payload = .pstr "" ∧
        (_dispatch_route c.maintype c.subtype = .textR ∨
          _dispatch_route c.maintype c.subtype = .defaultR) :=
      fun c hc => h c (by simp [MsgList.toList, hc])
    simp [writeList, write_header_only w g m ri hm.1 hm.2,
      writeList_header_only w g ms ri hrest, MsgList.toList]

/-- C7: a message/delivery-status node whose children are header-only
sub-messages renders each child independently, strips exactly one trailing
empty line from each rendered block, and joins the blocks with the separator:
the resulting body is the separator-join of the children's header blocks
(each block being its header lines, every one terminated by the separator),
so exactly one blank line stands between consecutive blocks and no blank line
follows the last one.  The cleanliness hypothesis states that a child's
header block splits at its final separator, which holds whenever the header
lines contain no embedded separator. -/
theorem delivery_status_spacing (w : World) (g : Gen)
    (hs : List (String × String)) (st : String) (cs : MsgList)
    (bd pre epi uf : Option String) (ri : Nat)
    (hroute : _dispatch_route "message" st = .deliveryStatusR)
    (hchild : ∀ c ∈ cs.toList, c.payload = .pstr "" ∧
      (_dispatch_route c.maintype c.subtype = .textR ∨
        _dispatch_route c.maintype c.subtype = .defaultR))
    (hclean : ∀ c ∈ cs.toList,
      pysplit g.NL (headerBlock w g c ++ g.NL) =
        pysplit g.NL (headerBlock w g c) ++ [""]) :
    _write w g (.mk hs "message" st (.plist cs) bd pre epi uf) ri =
      .ok (_write_headers w g hs ++
          pyjoin g.NL (cs.toList.map fun c => headerBlock w g c),
        .mk hs "message" st (.plist cs) bd pre epi uf, ri) := by
  have hmap : (cs.toList.map fun c => headerBlock w g c ++ g.NL).map
      (fun t => stripTrailingEmpty g t) = cs.toList.map fun c => headerBlock w g c := by
    rw [List.map_map]
    apply List.map_congr_left
    intro c hc
    exact stripTrailingEmpty_append_sep g _ (hclean c hc)
  simp [_write, hroute, _handle_message_delivery_status,
    writeList_header_only w g cs ri hchild, hmap]

theorem delivery_status_spacing_witness :
    _write W0 G0
        (.mk [] "message" "delivery-status"
          (.plist (.cons (.mk [("Action", "failed")] "text" "plain" (.pstr "")
              none none none none)
            (.cons (.mk [("Status", "5.0.0")] "text" "plain" (.pstr "")
              none none none none) .nil)))
          none none none none) 0 =
      .ok (_write_headers W0 G0 [] ++
          pyjoin G0.NL
            ((MsgList.cons (.mk [("Action", "failed")] "text" "plain" (.pstr "")
                none none none none)
              (.cons (.mk [("Status", "5.0.0")] "text" "plain" (.pstr "")
                none none none none) .nil)).toList.map
              fun c => headerBlock W0 G0 c),
        .mk [] "message" "delivery-status"
          (.plist (.cons (.mk [("Action", "failed")] "text" "plain" (.pstr "")
              none none none none)
            (.cons (.mk [("Status", "5.0.0")] "text" "plain" (.pstr "")
              none none none none) .nil)))
          none none none none, 0) :=
  delivery_status_spacing W0 G0 [] "delivery-status" _ none none none none 0
    rfl
    (by
      intro c hc
      simp [MsgList.toList] at hc
      rcases hc with rfl | rfl <;>
        exact ⟨rfl, Or.inl rfl⟩)
    (by
      intro c hc
      simp [MsgList.toList] at hc
      rcases hc with rfl | rfl <;> decide)

/-! ## Idempotence of re-serialization -/

/-- Re-assembling a multipart body with the boundary stored by a first
assembly reproduces the same text and boundary and consumes no randomness:
a freshly chosen boundary is never empty, so the second pass sees a present,
non-empty boundary parameter and keeps it. -/
theorem multipartAssemble_stable (w : World) (g : Gen) (texts : List String)
    (bd pre epi : Option String) (ri : Nat) (body : String)
    (bd' : Option String) (ri' : Nat)
    (h : multipartAssemble w g texts bd pre epi ri = (body, bd', ri')) :
    ∀ rj : Nat, multipartAssemble w g texts bd' pre epi rj = (body, bd', rj) := by
  intro rj
  cases bd with
  | none =>
    have hb := make_boundary_ne_empty (w.rand ri) (some (pyjoin g.NL texts))
    simp only [multipartAssemble, if_true] at h
    rw [Prod.mk.injEq, Prod.mk.injEq] at h
    obtain ⟨h1, h2, h3⟩ := h
    subst h1; subst h2; subst h3
    simp only [multipartAssemble, decide_eq_false hb, Bool.false_eq_true,
      if_false, Option.getD_some]
  | some b =>
    by_cases hbe : b = ""
    · subst hbe
      have hb := make_boundary_ne_empty (w.rand ri) (some (pyjoin g.NL texts))
      simp only [multipartAssemble, decide_eq_true_eq, if_true] at h
      rw [Prod.mk.injEq, Prod.mk.injEq] at h
      obtain ⟨h1, h2, h3⟩ := h
      subst h1; subst h2; subst h3
      simp only [multipartAssemble, decide_eq_false hb, Bool.false_eq_true,
        if_false, Option.getD_some]
    · simp only [multipartAssemble, decide_eq_false hbe, Bool.false_eq_true,
        if_false, Option.getD_some] at h
      rw [Prod.mk.injEq, Prod.mk.injEq] at h
      obtain ⟨h1, h2, h3⟩ := h
      subst h1; subst h2; subst h3
      simp only [multipartAssemble, decide_eq_false hbe, Bool.false_eq_true,
        if_false, Option.getD_some]

mutual
/-- A message produced by a successful `_write` pass is a fixed point: writing
it again (at any random index) yields the same output, the same message, and
consumes no randomness — the boundary back-fill happened on the first pass. -/
theorem write_stable (w : World) (g : Gen) :
    ∀ (m : Message) (ri : Nat) (o : String) (m2 : Message) (ri2 : Nat),
      _write w g m ri = .ok (o, m2, ri2) →
      ∀ rj : Nat, _write w g m2 rj = .ok (o, m2, rj)
  | .mk hs mt st pl bd pre epi uf, ri, o, m2, ri2, h, rj => by
    cases hr : _dispatch_route mt st with
    | textR =>
      cases pl with
      | pnone =>
        simp only [_write, hr, _handle_text] at h
        rw [Except.ok.injEq, Prod.mk.injEq, Prod.mk.injEq] at h
        obtain ⟨h1, h2, h3⟩ := h
        subst h1; subst h2; subst h3
        simp [_write, hr, _handle_text]
      | pstr s =>
        simp only [_write, hr, _handle_text] at h
        rw [Except.ok.injEq, Prod.mk.injEq, Prod.mk.injEq] at h
        obtain ⟨h1, h2, h3⟩ := h
        subst h1; subst h2; subst h3
        simp [_write, hr, _handle_text]
      | plist ps => simp [_write, hr, _handle_text] at h
    | defaultR =>
      cases pl with
      | pnone =>
        simp only [_write, hr, _handle_text] at h
        rw [Except.ok.injEq, Prod.mk.injEq, Prod.mk.injEq] at h
        obtain ⟨h1, h2, h3⟩ := h
        subst h1; subst h2; subst h3
        simp [_write, hr, _handle_text]
      | pstr s =>
        simp only [_write, hr, _handle_text] at h
        rw [Except.ok.injEq, Prod.mk.injEq, Prod.mk.injEq] at h
        obtain ⟨h1, h2, h3⟩ := h
        subst h1; subst h2; subst h3
        simp [_write, hr, _handle_text]
      | plist ps => simp [_write, hr, _handle_text] at h
    | multipartR =>
      cases pl with
      | pstr s =>
        simp only [_write, hr, _handle_multipart] at h
        rw [Except.ok.injEq, Prod.mk.injEq, Prod.mk.injEq] at h
        obtain ⟨h1, h2, h3⟩ := h
        subst h1; subst h2; subst h3
        simp [_write, hr, _handle_multipart]
      | pnone =>
        rcases hass : multipartAssemble w g [] bd pre epi ri with ⟨body, bdA, riA⟩
        simp only [_write, hr, _handle_multipart, hass] at h
        rw [Except.ok.injEq, Prod.mk.injEq, Prod.mk.injEq] at h
        obtain ⟨h1, h2, h3⟩ := h
        subst h1; subst h2; subst h3
        simp [_write, hr, _handle_multipart,
          multipartAssemble_stable w g [] bd pre epi ri _ _ _ hass rj]
      | plist ps =>
        rcases hw : writeList w g ps ri with e | tq
        · simp [_write, hr, _handle_multipart, hw] at h
        · obtain ⟨texts, ps', riA⟩ := tq
          rcases hass : multipartAssemble w g texts bd pre epi riA with ⟨body, bdA, riB⟩
          simp only [_write, hr, _handle_multipart, hw, hass] at h
          rw [Except.ok.injEq, Prod.mk.injEq, Prod.mk.injEq] at h
          obtain ⟨h1, h2, h3⟩ := h
          subst h1; subst h2; subst h3
          simp [_write, hr, _handle_multipart,
            writeList_stable w g ps ri texts ps' riA hw rj,
            multipartAssemble_stable w g texts bd pre epi riA _ _ _ hass rj]
    | signedR =>
      cases pl with
      | pstr s =>
        simp only [_write, hr, _handle_multipart] at h
        rw [Except.ok.injEq, Prod.mk.injEq, Prod.mk.injEq] at h
        obtain ⟨h1, h2, h3⟩ := h
        subst h1; subst h2; subst h3
        simp [_write, hr, _handle_multipart]
      | pnone =>
        rcases hass : multipartAssemble w g [] bd pre epi ri with ⟨body, bdA, riA⟩
        simp only [_write, hr, _handle_multipart, hass] at h
        rw [Except.ok.injEq, Prod.mk.injEq, Prod.mk.injEq] at h
        obtain ⟨h1, h2, h3⟩ := h
        subst h1; subst h2; subst h3
        simp [_write, hr, _handle_multipart,
          multipartAssemble_stable w g [] bd pre epi ri _ _ _ hass rj]
      | plist ps =>
        rcases hw : writeList w g ps ri with e | tq
        · simp [_write, hr, _handle_multipart, hw] at h
        · obtain ⟨texts, ps', riA⟩ := tq
          rcases hass : multipartAssemble w g texts bd pre epi riA with ⟨body, bdA, riB⟩
          simp only [_write, hr, _handle_multipart, hw, hass] at h
          rw [Except.ok.injEq, Prod.mk.injEq, Prod.mk.injEq] at h
          obtain ⟨h1, h2, h3⟩ := h
          subst h1; subst h2; subst h3
          simp [_write, hr, _handle_multipart,
            writeList_stable w g ps ri texts ps' riA hw rj,
            multipartAssemble_stable w g texts bd pre epi riA _ _ _ hass rj]
    | messageR =>
      cases pl with
      | pnone => simp [_write, hr, _handle_message] at h
      | pstr s =>
        simp only [_write, hr, _handle_message] at h
        rw [Except.ok.injEq, Prod.mk.injEq, Prod.mk.injEq] at h
        obtain ⟨h1, h2, h3⟩ := h
        subst h1; subst h2; subst h3
        simp [_write, hr, _handle_message]
      | plist ps =>
        cases ps with
        | nil => simp [_write, hr, _handle_message] at h
        | cons m0 rest =>
          rcases hw : _write w g m0 ri with e | tq
          · simp [_write, hr, _handle_message, hw] at h
          · obtain ⟨t, m0', riA⟩ := tq
            simp only [_write, hr, _handle_message, hw] at h
            rw [Except.ok.injEq, Prod.mk.injEq, Prod.mk.injEq] at h
            obtain ⟨h1, h2, h3⟩ := h
            subst h1; subst h2; subst h3
            simp [_write, hr, _handle_message,
              write_stable w g m0 ri t m0' riA hw rj]
    | deliveryStatusR =>
      cases pl with
      | pnone => simp [_write, hr, _handle_message_delivery_status] at h
      | pstr s =>
        by_cases hse : s = ""
        · subst hse
          simp only [_write, hr, _handle_message_delivery_status, if_true] at h
          rw [Except.ok.injEq, Prod.mk.injEq, Prod.mk.injEq] at h
          obtain ⟨h1, h2, h3⟩ := h
          subst h1; subst h2; subst h3
          simp [_write, hr, _handle_message_delivery_status]
        · simp [_write, hr, _handle_message_delivery_status, hse] at h
      | plist ps =>
        rcases hw : writeList w g ps ri with e | tq
        · simp [_write, hr, _handle_message_delivery_status, hw] at h
        · obtain ⟨texts, ps', riA⟩ := tq
          simp only [_write, hr, _handle_message_delivery_status, hw] at h
          rw [Except.ok.injEq, Prod.mk.injEq, Prod.mk.injEq] at h
          obtain ⟨h1, h2, h3⟩ := h
          subst h1; subst h2; subst h3
          simp [_write, hr, _handle_message_delivery_status,
            writeList_stable w g ps ri texts ps' riA hw rj]

/-- List version of `write_stable`. -/
theorem writeList_stable (w : World) (g : Gen) :
    ∀ (ms : MsgList) (ri : Nat) (ts : List String) (ms2 : MsgList) (ri2 : Nat),
      writeList w g ms ri = .ok (ts, ms2, ri2) →
      ∀ rj : Nat, writeList w g ms2 rj = .ok (ts, ms2, rj)
  | .nil, ri, ts, ms2, ri2, h, rj => by
    simp only [writeList] at h
    rw [Except.ok.injEq, Prod.mk.injEq, Prod.mk.injEq] at h
    obtain ⟨h1, h2, h3⟩ := h
    subst h1; subst h2; subst h3
    simp [writeList]
  | .cons m ms, ri, ts, ms2, ri2, h, rj => by
    rcases hw : _write w g m ri with e | tq
    · simp [writeList, hw] at h
    · obtain ⟨t, m', riA⟩ := tq
      rcases hl : writeList w g ms riA with e | lq
      · simp [writeList, hw, hl] at h
      · obtain ⟨ts', ms', riB⟩ := lq
        simp only [writeList, hw, hl] at h
        rw [Except.ok.injEq, Prod.mk.injEq, Prod.mk.injEq] at h
        obtain ⟨h1, h2, h3⟩ := h
        subst h1; subst h2; subst h3
        simp [writeList, write_stable w g m ri t m' riA hw rj,
          writeList_stable w g ms riA ts' ms' riB hl rj]
end

/-- A successful `_write` pass only rewrites the payload and boundary of a
node: headers, content type, preamble, epilogue and the Unix-From line are
left as they were. -/
theorem write_fields {w : World} {g : Gen}
    {hs : List (String × String)} {mt st : String} {pl : Payload}
    {bd pre epi uf : Option String} {ri : Nat} {o : String} {m2 : Message}
    {ri2 : Nat}
    (h : _write w g (.mk hs mt st pl bd pre epi uf) ri = .ok (o, m2, ri2)) :
    ∃ pl' bd', m2 = .mk hs mt st pl' bd' pre epi uf := by
  simp only [_write] at h
  split at h
  · exact absurd h (by simp)
  · next body pl' bd' riA _ =>
    rw [Except.ok.injEq, Prod.mk.injEq, Prod.mk.injEq] at h
    exact ⟨pl', bd', h.2.1.symm⟩

/-- Applying the separator override to an instance that already took it is a
no-op. -/
theorem effectiveGen_idem (g : Gen) (lsep : Option String) :
    effectiveGen (effectiveGen g lsep) lsep = effectiveGen g lsep := by
  cases lsep with
  | none => rfl
  | some s =>
    by_cases hse : s = "" <;> simp [effectiveGen, hse]

/-- C3: flattening the same tree twice with the same Generator configuration
(same world, same instance, same arguments), with no external mutation
between the calls, yields byte-identical output on both passes, including an
identical multipart boundary on the second pass: any multipart node lacking a
boundary had the chosen boundary assigned back onto it during the first pass,
so the second pass returns the same generator state, the same output, and
the message unchanged. -/
theorem flatten_idempotent (w : World) (g : Gen) (m : Message)
    (uxf : Bool) (lsep : Option String) (g2 : Gen) (o : String) (m2 : Message)
    (h : flatten w g m uxf lsep = (g2, .ok (o, m2))) :
    flatten w g2 m2 uxf lsep = (g2, .ok (o, m2)) := by
  obtain ⟨hs, mt, st, pl, bd, pre, epi, uf⟩ := m
  have hg : g2 = effectiveGen g lsep := (congrArg Prod.fst h).symm
  subst hg
  have hX := congrArg Prod.snd h
  simp only [flatten] at hX
  split at hX
  · exact absurd hX (by simp)
  · next out m' riX heq =>
    rw [Except.ok.injEq, Prod.mk.injEq] at hX
    obtain ⟨ho, hm⟩ := hX
    subst ho; subst hm
    obtain ⟨pl', bd', hm'⟩ := write_fields heq
    have hst := write_stable w (effectiveGen g lsep) _ 0 out m' riX heq 0
    show flatten w (effectiveGen g lsep) m' uxf lsep = _
    subst hm'
    simp only [flatten, effectiveGen_idem, hst, Message.unixfrom]

theorem flatten_idempotent_witness :
    flatten W0 G0
        (.mk [] "multipart" "mixed"
          (.plist (.cons (.mk [] "text" "plain" (.pstr "hello") none none none none)
            .nil))
          (some "===============0000000000000000000==") none none none)
        false none =
      (G0, .ok
        ("\n--===============0000000000000000000==\n\nhello\n--===============0000000000000000000==--",
          .mk [] "multipart" "mixed"
            (.plist (.cons (.mk [] "text" "plain" (.pstr "hello") none none none none)
              .nil))
            (some "===============0000000000000000000==") none none none)) :=
  flatten_idempotent W0 G0
    (.mk [] "multipart" "mixed"
      (.plist (.cons (.mk [] "text" "plain" (.pstr "hello") none none none none)
        .nil))
      none none none none)
    false none G0
    "\n--===============0000000000000000000==\n\nhello\n--===============0000000000000000000==--"
    (.mk [] "multipart" "mixed"
      (.plist (.cons (.mk [] "text" "plain" (.pstr "hello") none none none none)
        .nil))
      (some "===============0000000000000000000==") none none none)
    rfl

end MailGen
